import Mathlib

/-!
# Verification of the mcp-clipboard storage and retention engine

Shallow embedding of the clipboard server's database layer (`database.ts`,
revision with `addTextItem`/`listItems`/`clearItems`), its security gate
(`security.ts`) and constants (`constants.ts`).

Modelling conventions:
* SQLite rows are a `List Item` held in rowid (id-ascending insertion) order,
  the order in which a full table scan visits them.  `ORDER BY` is modelled by
  a stable insertion sort over that scan order.  The SQL in the source orders
  by `is_pinned DESC, created_at DESC` (or `created_at DESC` alone) with no
  further key, so the relative order of rows with equal keys is not specified
  by SQL; the stable sort reproduces the scan order for ties.
* `AUTOINCREMENT` row ids: the next id is one more than the larger of the
  `sqlite_sequence` entry and the largest rowid present.
* The filesystem of cache files is a `List String` of existing paths.
  `unlinkSync` may fail; a failure oracle `unlinkOk : String → Bool` decides
  whether a given unlink succeeds (the code swallows the failure either way).
* Timestamps are naturals (`created_at` has second granularity, so distinct
  inserts can share a timestamp); rate-limiter timestamps are integers since
  they are compared by subtraction.
* JS strings are modelled by `String`, with `slice`/`length` over UTF-16
  units modelled over `Char` lists.
-/

namespace Clipboard

/-- One row of `clipboard_items` (`ClipboardItem` in `database.ts`). -/
structure Item where
  id : Nat
  content : String
  contentType : String
  preview : String
  isPinned : Bool
  isPrivate : Bool
  createdAt : Nat
  updatedAt : Nat
  cachedFilePath : Option String
  originalPath : Option String
  fileSize : Option Nat
  mimeType : Option String
deriving DecidableEq, Repr

/-- The persistent state: table rows in rowid order, the `sqlite_sequence`
value for the table, and the set of existing cache files. -/
structure DBState where
  items : List Item
  seq : Nat
  fs : List String
deriving DecidableEq, Repr

/-- `MAX_ITEMS` from `constants.ts`. -/
def MAX_ITEMS : Nat := 50

/-- `PREVIEW_LENGTH` from `constants.ts`. -/
def PREVIEW_LENGTH : Nat := 100

/-- Numeric value of the stored `is_pinned` flag (SQLite stores 0/1). -/
def pinNat (it : Item) : Nat := if it.isPinned then 1 else 0

/-- The row order produced by `ORDER BY is_pinned DESC, created_at DESC`:
`a` may come no later than `b`. -/
def listLe (a b : Item) : Prop :=
  pinNat b < pinNat a ∨ (pinNat a = pinNat b ∧ b.createdAt ≤ a.createdAt)

instance : DecidableRel listLe := fun a b => by
  unfold listLe; infer_instance

instance : IsTotal Item listLe := by
  constructor
  intro a b
  unfold listLe
  omega

instance : IsTrans Item listLe := by
  constructor
  intro a b c hab hbc
  unfold listLe at *
  omega

/-- The row order produced by `ORDER BY created_at DESC`. -/
def createdLe (a b : Item) : Prop := b.createdAt ≤ a.createdAt

instance : DecidableRel createdLe := fun a b => by
  unfold createdLe; infer_instance

instance : IsTotal Item createdLe := by
  constructor
  intro a b
  unfold createdLe
  omega

instance : IsTrans Item createdLe := by
  constructor
  intro a b c hab hbc
  unfold createdLe at *
  omega

/-- Stable sort of a scan in `ORDER BY is_pinned DESC, created_at DESC` order. -/
def sortForList (l : List Item) : List Item := l.insertionSort listLe

/-- Stable sort of a scan in `ORDER BY created_at DESC` order. -/
def sortByCreated (l : List Item) : List Item := l.insertionSort createdLe

/-! ## Security gate (`security.ts`) -/

/-- Whitespace characters matched by the `\s` class of JS regexes (the ASCII
ones; the source strings the claims exercise contain no exotic whitespace). -/
def isJsWs (c : Char) : Bool :=
  c = ' ' || c = '\t' || c = '\n' || c = '\r' || c = Char.ofNat 11 || c = Char.ofNat 12

/-- `String.prototype.trim`. -/
def jsTrim (s : String) : String :=
  String.mk (((s.data.dropWhile isJsWs).reverse.dropWhile isJsWs).reverse)

/-- The characters of `FTS_SPECIAL_CHARS = /[*"()-]/g` (`constants.ts`). -/
def isFtsSpecial (c : Char) : Bool :=
  c = '*' || c = '"' || c = '(' || c = ')' || c = '-'

/-- `query.replace(FTS_SPECIAL_CHARS, (char) => ... )`: each special character
is wrapped in double quotes. -/
def escapeFtsChars (q : String) : String :=
  String.join (q.data.map fun c =>
    if isFtsSpecial c then String.mk ['"', c, '"'] else String.mk [c])

/-- `.replace(/\s+/g, ' ')`: collapse every whitespace run into one space.
The Boolean argument records whether the previous character was whitespace. -/
def collapseWsAux : List Char → Bool → List Char
  | [], _ => []
  | c :: rest, lastWs =>
    if isJsWs c then
      if lastWs then collapseWsAux rest true else ' ' :: collapseWsAux rest true
    else c :: collapseWsAux rest false

/-- `sanitized.trim().replace(/\s+/g, ' ')` from `sanitizeFtsQuery`. -/
def trimCollapseWs (s : String) : String :=
  String.mk (collapseWsAux (jsTrim s).data false)

/-- `sanitizeFtsQuery` (`security.ts` lines 73-96): escape FTS5 special
characters, collapse whitespace, refuse cleaned queries shorter than 2
characters, and wrap the result in double quotes for exact-phrase matching. -/
def sanitizeFtsQuery (query : String) : String :=
  if query = "" then ""
  else
    let sanitized := trimCollapseWs (escapeFtsChars query)
    if sanitized.length < 2 then ""
    else "\"" ++ sanitized ++ "\""

/-- Characters forbidden by `ALLOWED_PATH_REGEX = /^[^<>:"|?*]+$/`. -/
def isForbiddenPathChar (c : Char) : Bool :=
  c = '<' || c = '>' || c = ':' || c = '"' || c = '|' || c = '?' || c = '*'

/-- `ALLOWED_PATH_REGEX.test`: at least one character, none forbidden. -/
def allowedPathTest (p : String) : Bool :=
  !(p = "") && p.data.all (fun c => !(isForbiddenPathChar c))

/-- Does `pre` lead the character list `s`?  (`String.prototype.startsWith`
over the characters.) -/
def leadsWith : List Char → List Char → Bool
  | [], _ => true
  | _ :: _, [] => false
  | a :: as, b :: bs => a = b && leadsWith as bs

/-- `absolutePath.startsWith(base)` of the source, over our `String`s. -/
def strStartsWith (s pre : String) : Bool := leadsWith pre.data s.data

/-- Split a character list at every `/` (the segments of a POSIX path). -/
def splitSlashAux : List Char → List Char → List (List Char)
  | [], cur => [cur.reverse]
  | c :: rest, cur =>
    if c = '/' then cur.reverse :: splitSlashAux rest []
    else splitSlashAux rest (c :: cur)

/-- POSIX normalization over the segment list of an absolute path: empty and
`.` segments disappear, `..` pops the previous segment (and is clamped away
at the root), anything else is kept. -/
def normAbsSegs (segs : List (List Char)) : List (List Char) :=
  segs.foldl
    (fun acc seg =>
      if seg = [] || seg = ['.'] then acc
      else if seg = ['.', '.'] then acc.dropLast
      else acc ++ [seg])
    []

/-- Rejoin path segments with `/`. -/
def joinSegs : List (List Char) → List Char
  | [] => []
  | [x] => x
  | x :: rest => x ++ '/' :: joinSegs rest

/-- `path.normalize` of an absolute POSIX path (also the effect of
`path.resolve` once the path has been made absolute).  Trailing-slash
preservation is irrelevant to the properties proved here and is dropped. -/
def normalizeAbs (p : String) : String :=
  String.mk ('/' :: joinSegs (normAbsSegs (splitSlashAux p.data [])))

/-- The test of the suspicious pattern `/\/\.\./` (substring `/..`). -/
def hasParentTraversalAux : List Char → Bool
  | '/' :: '.' :: '.' :: _ => true
  | _ :: rest => hasParentTraversalAux rest
  | [] => false

/-- Does the path contain the substring `/..`? -/
def hasParentTraversal (s : String) : Bool := hasParentTraversalAux s.data

/-- The test of the suspicious pattern `/\.\.$/` (ends with `..`). -/
def endsWithDotDot (s : String) : Bool :=
  match s.data.reverse with
  | '.' :: '.' :: _ => true
  | _ => false

/-- `validateFilePath` (`security.ts` lines 12-66) with the ambient
`homedir()` and `process.cwd()` made explicit (both absolute paths).  The
caller does not pass `allowedBasePaths`, so the roots are home and cwd.
All branches are pure string computation; the function itself touches no
filesystem. -/
def validateFilePath (home cwd : String) (filePath : String) : Except String String :=
  if filePath = "" then
    Except.error "Invalid file path: path must be a non-empty string"
  else if filePath.data.contains (Char.ofNat 0) then
    Except.error "Invalid file path: contains null bytes"
  else
    let cleanPath := jsTrim filePath
    cond (!(allowedPathTest cleanPath))
      (Except.error "Invalid file path: contains forbidden characters")
      (let expandedPath :=
        cond (strStartsWith cleanPath "~/")
          (home ++ String.mk (cleanPath.data.drop 1)) cleanPath
      let absolutePath :=
        cond (strStartsWith expandedPath "/") (normalizeAbs expandedPath)
          (normalizeAbs (cwd ++ "/" ++ expandedPath))
      cond (!(strStartsWith absolutePath (normalizeAbs home) ||
              strStartsWith absolutePath (normalizeAbs cwd)))
        (Except.error "Access denied: file path is outside allowed directories")
        (cond (hasParentTraversal absolutePath || endsWithDotDot absolutePath)
          (Except.error "Invalid file path: contains suspicious patterns")
          (Except.ok absolutePath)))

/-- `RateLimiter` state (`security.ts` lines 101-109): constructor arguments
and the two identifier-keyed timestamp maps, modelled as association lists in
`Map` insertion order. -/
structure RateLimiter where
  windowMs : Int
  maxRequests : Nat
  maxFileOps : Nat
  requests : List (String × List Int)
  fileOps : List (String × List Int)
deriving DecidableEq, Repr

/-- `map.get(identifier) || []`. -/
def mapGet (m : List (String × List Int)) (k : String) : List Int :=
  match m.find? (fun e => e.1 = k) with
  | some e => e.2
  | none => []

/-- `map.set(identifier, v)`: replace in place, or append a new key. -/
def mapSet (m : List (String × List Int)) (k : String) (v : List Int) :
    List (String × List Int) :=
  if m.any (fun e => e.1 = k) then
    m.map (fun e => if e.1 = k then (k, v) else e)
  else m ++ [(k, v)]

/-- `RateLimiter.checkLimit` (`security.ts` lines 117-138).  The ternaries on
`isFileOp` are `cond`; `timestamps.length >= limit` returns `false` with the
maps untouched, otherwise the filtered timestamps plus `now` are stored. -/
def checkLimit (rl : RateLimiter) (now : Int) (identifier : String)
    (isFileOp : Bool) : Bool × RateLimiter :=
  let m := cond isFileOp rl.fileOps rl.requests
  let limit := cond isFileOp rl.maxFileOps rl.maxRequests
  let timestamps := (mapGet m identifier).filter (fun ts => now - ts < rl.windowMs)
  if limit ≤ timestamps.length then (false, rl)
  else
    let m2 := mapSet m identifier (timestamps ++ [now])
    (true, cond isFileOp { rl with fileOps := m2 } { rl with requests := m2 })

/-! ## Retention and search engine (`database.ts`) -/

/-- `getItem` (`database.ts` lines 633-642): `SELECT * WHERE id = ?`. -/
def getItem (s : DBState) (id : Nat) : Option Item :=
  s.items.find? (fun it => it.id = id)

/-- `listItems` (`database.ts` lines 647-658): optional `is_private = 0`
filter, `ORDER BY is_pinned DESC, created_at DESC`, `LIMIT ?`. -/
def listItems (s : DBState) (limit : Nat) (includePrivate : Bool) : List Item :=
  (sortForList
      (if includePrivate then s.items else s.items.filter (fun it => !it.isPrivate))).take
    limit

/-- `getLatestItem` (`database.ts` lines 254-262):
`ORDER BY created_at DESC LIMIT 1`, with no privacy filter and no pin key. -/
def getLatestItem (s : DBState) : Option Item :=
  (sortByCreated s.items).head?

/-- `searchItems` (`database.ts` lines 663-680).  The FTS5 `MATCH` verdict is
abstracted into `ftsMatch sanitizedQuery content preview`; the index is in
lockstep with the table (triggers), so a row matches exactly when its own
`content`/`preview` match.  The SQL also demands `is_private = 0`. -/
def searchItems (s : DBState) (ftsMatch : String → String → String → Bool)
    (query : String) (limit : Nat) : List Item :=
  let sanitizedQuery := sanitizeFtsQuery query
  if sanitizedQuery = "" then []
  else
    (sortForList
        (s.items.filter (fun it =>
          ftsMatch sanitizedQuery it.content it.preview && !it.isPrivate))).take
      limit

/-- `pinItem` (`database.ts` lines 685-689): `UPDATE ... SET is_pinned = ?
WHERE id = ?`; `changes > 0` holds exactly when some row has the id. -/
def pinItem (s : DBState) (id : Nat) (pinned : Bool) : DBState × Bool :=
  ({ s with
      items := s.items.map (fun it =>
        if it.id = id then { it with isPinned := pinned } else it) },
    s.items.any (fun it => it.id = id))

/-- `if (existsSync(p)) { try { unlinkSync(p) } catch { ... } }`:
the unlink is attempted only for an existing path and its failure (decided by
the oracle `unlinkOk`) is swallowed. -/
def unlinkIfExists (unlinkOk : String → Bool) (fs : List String) (p : String) :
    List String :=
  if p ∈ fs then (if unlinkOk p then fs.filter (fun q => q ≠ p) else fs) else fs

/-- `deleteItem` (`database.ts` lines 694-712): look the row up, return
`false` when absent; otherwise best-effort-unlink its cache file, delete the
row, and return `changes > 0`. -/
def deleteItem (s : DBState) (unlinkOk : String → Bool) (id : Nat) :
    DBState × Bool :=
  match getItem s id with
  | none => (s, false)
  | some it =>
    let fs2 :=
      match it.cachedFilePath with
      | some p => unlinkIfExists unlinkOk s.fs p
      | none => s.fs
    ({ items := s.items.filter (fun j => j.id ≠ id), seq := s.seq, fs := fs2 }, true)

/-- Deleting a list of ids one `deleteItem` at a time. -/
def deleteMany (s : DBState) (unlinkOk : String → Bool) (ids : List Nat) : DBState :=
  ids.foldl (fun st i => (deleteItem st unlinkOk i).1) s

/-- `WHERE is_pinned = 0`. -/
def nonPinned (l : List Item) : List Item := l.filter (fun it => !it.isPinned)

/-- The rows selected by `maintainItemLimit`'s query
`SELECT id FROM clipboard_items WHERE is_pinned = 0 ORDER BY created_at DESC
LIMIT -1 OFFSET MAX_ITEMS`. -/
def excessItems (l : List Item) : List Item :=
  (sortByCreated (nonPinned l)).drop MAX_ITEMS

/-- `maintainItemLimit` (`database.ts` lines 855-869): select the non-pinned
rows past the first `MAX_ITEMS` of the `created_at DESC` ordering, then delete
each through `deleteItem`.  (`maintainMaxItems`, lines 332-368 of the other
revision, deletes the complement of the same `LIMIT MAX_ITEMS` selection.) -/
def maintainItemLimit (s : DBState) (unlinkOk : String → Bool) : DBState :=
  deleteMany s unlinkOk ((excessItems s.items).map (fun it => it.id))

/-- Largest rowid present in the table (0 when empty). -/
def maxIdOf (l : List Item) : Nat := l.foldl (fun m it => max m it.id) 0

/-- The rowid `AUTOINCREMENT` assigns next: one more than the larger of the
`sqlite_sequence` entry and the largest existing rowid. -/
def nextId (s : DBState) : Nat := max s.seq (maxIdOf s.items) + 1

/-- `generatePreview` (`database.ts` lines 799-810).  `content.slice(0,
PREVIEW_LENGTH)` is the first 100 UTF-16 units, modelled over `Char`s;
`formatFileSize` output is received pre-rendered in `sizeText` because no
claim depends on its decimal rendering. -/
def generatePreview (content : String) (contentType : String)
    (fileName : Option String) (sizeText : Option String) : String :=
  if contentType = "text" || contentType = "html" then
    String.mk (content.data.take PREVIEW_LENGTH) ++
      (if PREVIEW_LENGTH < content.length then "..." else "")
  else
    match fileName, sizeText with
    | some n, some sz => "📁 " ++ n ++ " (" ++ sz ++ ")"
    | _, _ => contentType

/-- The row the `INSERT INTO clipboard_items (content, content_type, preview,
is_private) VALUES (?, ?, ?, ?)` of `addTextItem` creates (defaults: not
pinned, timestamps `CURRENT_TIMESTAMP`, file columns NULL). -/
def newTextItem (s : DBState) (now : Nat) (content contentType : String)
    (isPrivate : Bool) : Item :=
  { id := nextId s, content := content, contentType := contentType,
    preview := generatePreview content contentType none none,
    isPinned := false, isPrivate := isPrivate,
    createdAt := now, updatedAt := now,
    cachedFilePath := none, originalPath := none,
    fileSize := none, mimeType := none }

/-- The `INSERT` step of `addTextItem`, returning the new state and
`result.lastInsertRowid`. -/
def insertTextRow (s : DBState) (now : Nat) (content contentType : String)
    (isPrivate : Bool) : DBState × Nat :=
  ({ items := s.items ++ [newTextItem s now content contentType isPrivate],
     seq := nextId s, fs := s.fs }, nextId s)

/-- `addTextItem` (`database.ts` lines 553-565): insert the row, run
`maintainItemLimit`, and return `getItem(lastInsertRowid)` (the source applies
`!` to that value; `none` models the null that `!` lets through). -/
def addTextItem (s : DBState) (unlinkOk : String → Bool) (now : Nat)
    (content contentType : String) (isPrivate : Bool) : DBState × Option Item :=
  let r := insertTextRow s now content contentType isPrivate
  let s2 := maintainItemLimit r.1 unlinkOk
  (s2, getItem s2 r.2)

/-- The persistence tail of `addFileItem` (`database.ts` lines 599-627) once
validation, resolution, `statSync` and classification have produced the
file's metadata: `copyFileSync` materialises the cache file, then the
eight-column `INSERT` runs, then `maintainItemLimit`. -/
def insertFileRow (s : DBState) (now : Nat)
    (validatedPath cachedPath preview contentType mimeType : String)
    (fileSize : Nat) (isPrivate : Bool) : DBState × Nat :=
  let newId := nextId s
  let it : Item :=
    { id := newId, content := validatedPath, contentType := contentType,
      preview := preview, isPinned := false, isPrivate := isPrivate,
      createdAt := now, updatedAt := now,
      cachedFilePath := some cachedPath, originalPath := some validatedPath,
      fileSize := some fileSize, mimeType := some mimeType }
  ({ items := s.items ++ [it], seq := newId,
     fs := if cachedPath ∈ s.fs then s.fs else s.fs ++ [cachedPath] }, newId)

/-- `addFileItem`'s insert-then-evict tail, mirroring `addTextItem`. -/
def addFileItem (s : DBState) (unlinkOk : String → Bool) (now : Nat)
    (validatedPath cachedPath preview contentType mimeType : String)
    (fileSize : Nat) (isPrivate : Bool) : DBState × Option Item :=
  let r := insertFileRow s now validatedPath cachedPath preview contentType
    mimeType fileSize isPrivate
  let s2 := maintainItemLimit r.1 unlinkOk
  (s2, getItem s2 r.2)

/-- The cache-file cleanup loop of `clearItems`. -/
def unlinkCacheFiles (unlinkOk : String → Bool) (fs : List String)
    (sel : List Item) : List String :=
  sel.foldl
    (fun acc it =>
      match it.cachedFilePath with
      | some p => unlinkIfExists unlinkOk acc p
      | none => acc)
    fs

/-- `clearItems` (`database.ts` lines 717-748): select the doomed rows, clean
their cache files, `DELETE ... RETURNING id` (count), and reset
`sqlite_sequence` only when `clearAll` deleted at least one row. -/
def clearItems (s : DBState) (unlinkOk : String → Bool) (clearAll : Bool) :
    DBState × Nat :=
  let sel := if clearAll then s.items else s.items.filter (fun it => !it.isPinned)
  let fs2 := unlinkCacheFiles unlinkOk s.fs sel
  let kept := if clearAll then ([] : List Item) else s.items.filter (fun it => it.isPinned)
  let actualChanges := sel.length
  let seq2 := if clearAll && decide (0 < actualChanges) then 0 else s.seq
  ({ items := kept, seq := seq2, fs := fs2 }, actualChanges)

/-! ## Concrete states used by counterexamples and witnesses -/

/-- A plain text row, as `addTextItem` would create it. -/
def mkText (id created : Nat) (content : String) (pinned priv : Bool) : Item :=
  { id := id, content := content, contentType := "text",
    preview := generatePreview content "text" none none,
    isPinned := pinned, isPrivate := priv,
    createdAt := created, updatedAt := created,
    cachedFilePath := none, originalPath := none,
    fileSize := none, mimeType := none }

/-- An unlink oracle under which every `unlinkSync` succeeds. -/
def okAll : String → Bool := fun _ => true

/-! ## Shared lemmas -/

/-- `getItem` on a table with unique ids finds exactly the member row. -/
theorem find_id_of_nodup {l : List Item}
    (hn : (l.map (fun it => it.id)).Nodup) {it : Item} (hm : it ∈ l) :
    l.find? (fun j => j.id = it.id) = some it := by
  induction l with
  | nil => cases hm
  | cons a t ih =>
    by_cases ha : a.id = it.id
    · have : a = it := by
        rcases List.mem_cons.mp hm with h | h
        · exact h.symm
        · exact List.inj_on_of_nodup_map hn (List.mem_cons_self a t)
            (List.mem_cons_of_mem a h) ha
      simp [List.find?, ha, this]
    · have hit : it ∈ t := by
        rcases List.mem_cons.mp hm with h | h
        · exact absurd (h ▸ rfl) ha
        · exact h
      have hn2 : (t.map (fun it => it.id)).Nodup := by
        simpa using hn.of_cons
      simp only [List.find?, decide_eq_false ha]
      exact ih hn2 hit

/-- `deleteItem` always leaves exactly the rows with a different id. -/
theorem deleteItem_items (s : DBState) (unlinkOk : String → Bool) (id : Nat) :
    (deleteItem s unlinkOk id).1.items = s.items.filter (fun j => j.id ≠ id) := by
  unfold deleteItem
  cases h : getItem s id with
  | none =>
    have hall : ∀ j ∈ s.items, (fun j : Item => decide (j.id ≠ id)) j = true := by
      intro j hj
      have := List.find?_eq_none.mp h j hj
      simpa using fun he => this (by simpa using he)
    simpa using (List.filter_eq_self.mpr hall).symm
  | some it => rfl

/-- `deleteItem` never grows the set of rows. -/
theorem deleteMany_items (s : DBState) (unlinkOk : String → Bool)
    (ids : List Nat) :
    (deleteMany s unlinkOk ids).items =
      s.items.filter (fun it => !decide (it.id ∈ ids)) := by
  induction ids generalizing s with
  | nil =>
    simp only [deleteMany, List.foldl_nil]
    have : ∀ it ∈ s.items, (fun it : Item => !decide (it.id ∈ ([] : List Nat))) it = true := by
      intro it _
      simp
    exact (List.filter_eq_self.mpr this).symm
  | cons i rest ih =>
    have h1 : deleteMany s unlinkOk (i :: rest) =
        deleteMany (deleteItem s unlinkOk i).1 unlinkOk rest := rfl
    rw [h1, ih, deleteItem_items, List.filter_filter]
    apply List.filter_congr
    intro it _
    by_cases hi : it.id = i <;> by_cases hr : it.id ∈ rest <;>
      simp [hi, hr]

/-- An id never exceeds `maxIdOf`, for any fold seed. -/
theorem le_foldl_max (l : List Item) :
    ∀ init : Nat, ∀ a ∈ l, a.id ≤ l.foldl (fun m it => max m it.id) init := by
  induction l with
  | nil => intro _ a ha; cases ha
  | cons b t ih =>
    intro init a ha
    rcases List.mem_cons.mp ha with h | h
    · subst h
      have hseed : ∀ l2 : List Item, ∀ i : Nat,
          i ≤ l2.foldl (fun m it => max m it.id) i := by
        intro l2
        induction l2 with
        | nil => intro i; exact Nat.le_refl i
        | cons c u ihu =>
          intro i
          exact le_trans (Nat.le_max_left i c.id) (ihu (max i c.id))
      exact le_trans (Nat.le_max_right init a.id) (hseed t (max init a.id))
    · exact ih (max init b.id) a h

/-- Every existing row id is below the id `AUTOINCREMENT` assigns next. -/
theorem id_lt_nextId {s : DBState} {a : Item} (ha : a ∈ s.items) :
    a.id < nextId s := by
  unfold nextId maxIdOf
  have := le_foldl_max s.items 0 a ha
  omega

/-! ## Theorems -/

/-- C4: every record returned by `searchItems` is non-private, whatever the
FTS match verdicts are (so even when a private record's content or preview
matches), and the results are ordered like `list`: pinned first, then
`created_at` descending, bounded by the limit. -/
theorem search_excludes_private (s : DBState)
    (ftsMatch : String → String → String → Bool) (query : String) (limit : Nat) :
    (∀ it ∈ searchItems s ftsMatch query limit, it.isPrivate = false) ∧
    List.Sorted listLe (searchItems s ftsMatch query limit) ∧
    (searchItems s ftsMatch query limit).length ≤ limit := by
  simp only [searchItems]
  split
  · exact ⟨fun it hit => absurd hit (List.not_mem_nil it), List.sorted_nil, by simp⟩
  · refine ⟨?_, ?_, ?_⟩
    · intro it hit
      have h1 : it ∈ sortForList (s.items.filter (fun it =>
          ftsMatch (sanitizeFtsQuery query) it.content it.preview && !it.isPrivate)) :=
        List.take_subset _ _ hit
      have h2 : it ∈ s.items.filter (fun it =>
          ftsMatch (sanitizeFtsQuery query) it.content it.preview && !it.isPrivate) :=
        (List.perm_insertionSort listLe _).mem_iff.mp h1
      have h3 := List.of_mem_filter h2
      have h4 : (!it.isPrivate) = true := (Bool.and_eq_true _ _ |>.mp h3).2
      simpa using h4
    · exact List.Pairwise.sublist (List.take_sublist _ _)
        (List.sorted_insertionSort listLe _)
    · simp [List.length_take]

/-- Witness for C4: in a store holding a matching private record, the search
results exist and each is non-private; the theorem is applied to the head of
the concrete result list. -/
theorem search_excludes_private_witness :
    (mkText 1 1 "fox one" false false).isPrivate = false :=
  (search_excludes_private
      { items := [mkText 1 1 "fox one" false false, mkText 2 2 "fox two" false true],
        seq := 2, fs := [] }
      (fun _ _ _ => true) "fox" 10).1
    (mkText 1 1 "fox one" false false) (by decide)

/-- C7: `deleteItem` returns `true` exactly when a record with the id existed;
afterwards `getItem` is absent; a successful unlink removes the cache file;
and an unlink failure is swallowed: the row is still deleted, the call still
returns `true`, and the filesystem is untouched. -/
theorem delete_semantics (s : DBState) (unlinkOk : String → Bool) (id : Nat) :
    ((deleteItem s unlinkOk id).2 = true ↔ ∃ it ∈ s.items, it.id = id) ∧
    getItem (deleteItem s unlinkOk id).1 id = none ∧
    (∀ it p, getItem s id = some it → it.cachedFilePath = some p →
      unlinkOk p = true → p ∉ (deleteItem s unlinkOk id).1.fs) ∧
    (∀ it p, getItem s id = some it → it.cachedFilePath = some p →
      unlinkOk p = false →
      (deleteItem s unlinkOk id).2 = true ∧ (deleteItem s unlinkOk id).1.fs = s.fs) := by
  refine ⟨?_, ?_, ?_, ?_⟩
  · unfold deleteItem
    cases h : getItem s id with
    | none =>
      simp only [iff_false, Bool.false_eq_true, false_iff]
      rintro ⟨it, hmem, hid⟩
      exact List.find?_eq_none.mp h it hmem (by simpa using hid)
    | some it =>
      simp only [true_iff]
      exact ⟨it, List.mem_of_find?_eq_some h, by simpa using List.find?_some h⟩
  · unfold getItem
    rw [deleteItem_items]
    apply List.find?_eq_none.mpr
    intro j hj
    have := List.of_mem_filter hj
    simp only [decide_eq_true_eq] at this ⊢
    exact fun he => this (by simpa using he)
  · intro it p hit hp hok
    unfold deleteItem
    rw [hit]
    simp only [hp]
    unfold unlinkIfExists
    by_cases hmem : p ∈ s.fs
    · rw [if_pos hmem, if_pos hok]
      intro hc
      have := List.of_mem_filter hc
      simp at this
    · rw [if_neg hmem]
      exact hmem
  · intro it p hit hp hok
    unfold deleteItem
    rw [hit]
    simp only [hp]
    refine ⟨trivial, ?_⟩
    unfold unlinkIfExists
    by_cases hmem : p ∈ s.fs
    · rw [if_pos hmem, if_neg (by simp [hok])]
    · rw [if_neg hmem]

/-- Witness for C7: deleting a file-backed record whose cache unlink fails
still returns `true` and leaves the cache file on disk. -/
theorem delete_semantics_witness :
    (deleteItem
        { items := [{ id := 1, content := "/tmp/a.txt", contentType := "document_file",
                      preview := "f", isPinned := false, isPrivate := false,
                      createdAt := 1, updatedAt := 1,
                      cachedFilePath := some "/cache/item_1_a.txt",
                      originalPath := some "/tmp/a.txt",
                      fileSize := some 3, mimeType := some "text/plain" }],
          seq := 1, fs := ["/cache/item_1_a.txt"] }
        (fun _ => false) 1).2 = true ∧
    (deleteItem
        { items := [{ id := 1, content := "/tmp/a.txt", contentType := "document_file",
                      preview := "f", isPinned := false, isPrivate := false,
                      createdAt := 1, updatedAt := 1,
                      cachedFilePath := some "/cache/item_1_a.txt",
                      originalPath := some "/tmp/a.txt",
                      fileSize := some 3, mimeType := some "text/plain" }],
          seq := 1, fs := ["/cache/item_1_a.txt"] }
        (fun _ => false) 1).1.fs = ["/cache/item_1_a.txt"] :=
  (delete_semantics
      { items := [{ id := 1, content := "/tmp/a.txt", contentType := "document_file",
                    preview := "f", isPinned := false, isPrivate := false,
                    createdAt := 1, updatedAt := 1,
                    cachedFilePath := some "/cache/item_1_a.txt",
                    originalPath := some "/tmp/a.txt",
                    fileSize := some 3, mimeType := some "text/plain" }],
        seq := 1, fs := ["/cache/item_1_a.txt"] }
      (fun _ => false) 1).2.2.2
    { id := 1, content := "/tmp/a.txt", contentType := "document_file",
      preview := "f", isPinned := false, isPrivate := false,
      createdAt := 1, updatedAt := 1,
      cachedFilePath := some "/cache/item_1_a.txt",
      originalPath := some "/tmp/a.txt",
      fileSize := some 3, mimeType := some "text/plain" }
    "/cache/item_1_a.txt" (by decide) (by decide) (by decide)

/-- Unfolding of the state reached by `addTextItem`. -/
theorem addTextItem_spec (s : DBState) (unlinkOk : String → Bool) (now : Nat)
    (content contentType : String) (isPrivate : Bool) :
    addTextItem s unlinkOk now content contentType isPrivate =
      (maintainItemLimit (insertTextRow s now content contentType isPrivate).1 unlinkOk,
       getItem (maintainItemLimit (insertTextRow s now content contentType isPrivate).1 unlinkOk)
         (nextId s)) := rfl

/-- C9: when `addTextItem` returns a record, that record's `content` is the
inserted string verbatim, its `preview` is the first 100 characters with an
ellipsis appended exactly when the content is longer, and `getItem` of its id
returns the same record. -/
theorem insert_roundtrip (s : DBState) (unlinkOk : String → Bool) (now : Nat)
    (content contentType : String) (isPrivate : Bool) (it : Item)
    (h : (addTextItem s unlinkOk now content contentType isPrivate).2 = some it)
    (hct : contentType = "text" ∨ contentType = "html") :
    it.content = content ∧
    it.preview = String.mk (content.data.take PREVIEW_LENGTH) ++
      (if PREVIEW_LENGTH < content.length then "..." else "") ∧
    (content.length ≤ PREVIEW_LENGTH → it.preview = content) ∧
    getItem (addTextItem s unlinkOk now content contentType isPrivate).1 it.id = some it := by
  rw [addTextItem_spec] at h
  have hmem : it ∈ (maintainItemLimit
      (insertTextRow s now content contentType isPrivate).1 unlinkOk).items :=
    List.mem_of_find?_eq_some h
  have hid : it.id = nextId s := by
    have := List.find?_some h
    simpa using this
  have hitems : (maintainItemLimit
      (insertTextRow s now content contentType isPrivate).1 unlinkOk).items =
      ((s.items ++ [newTextItem s now content contentType isPrivate]).filter
        (fun j => !decide (j.id ∈
          (excessItems (s.items ++ [newTextItem s now content contentType isPrivate])).map
            (fun e => e.id)))) :=
    deleteMany_items _ unlinkOk _
  rw [hitems] at hmem
  have hmem2 := List.mem_of_mem_filter hmem
  have heq : it = newTextItem s now content contentType isPrivate := by
    rcases List.mem_append.mp hmem2 with hl | hr
    · exact absurd hid (by have := id_lt_nextId hl; omega)
    · simpa using hr
  have hprev : it.preview = String.mk (content.data.take PREVIEW_LENGTH) ++
      (if PREVIEW_LENGTH < content.length then "..." else "") := by
    rw [heq]
    show generatePreview content contentType none none = _
    rcases hct with hct | hct <;> rw [hct] <;> simp [generatePreview]
  refine ⟨by rw [heq]; rfl, hprev, ?_, ?_⟩
  · intro hlen
    rw [hprev, if_neg (by omega)]
    have ht : content.data.take PREVIEW_LENGTH = content.data :=
      List.take_of_length_le
        (by have hdl : content.data.length = content.length := rfl; omega)
    rw [ht]
    show String.mk (content.data ++ []) = content
    rw [List.append_nil]
  · rw [addTextItem_spec, hid]
    exact h

/-- Witness for C9: the claim's own example, `insertText("hello", "text",
false)` into an empty store. -/
theorem insert_roundtrip_witness :
    ∃ it : Item,
      (addTextItem { items := [], seq := 0, fs := [] } okAll 7 "hello" "text" false).2 =
        some it ∧ it.content = "hello" ∧ it.preview = "hello" := by
  refine ⟨mkText 1 7 "hello" false false, by decide, ?_, ?_⟩
  · exact (insert_roundtrip { items := [], seq := 0, fs := [] } okAll 7 "hello" "text"
      false (mkText 1 7 "hello" false false) (by decide) (Or.inl rfl)).1
  · exact (insert_roundtrip { items := [], seq := 0, fs := [] } okAll 7 "hello" "text"
      false (mkText 1 7 "hello" false false) (by decide) (Or.inl rfl)).2.2.1 (by decide)

/-- Two non-pinned text records sharing one `created_at` second. -/
def tieState : DBState :=
  { items := [mkText 1 5 "a" false false, mkText 2 5 "b" false false],
    seq := 2, fs := [] }

/-- Counterexample to C3 as stated: with two records sharing `created_at`,
`list` does not order them by id descending — the SQL has no id key, so the
scan order (id ascending) survives the stable sort. -/
theorem list_tiebreak_counterexample :
    (listItems tieState 2 true).map (fun it => it.id) = [1, 2] ∧
    (listItems tieState 2 true).map (fun it => it.id) ≠ [2, 1] := by
  constructor <;> decide

/-- C3 (amended): `list(N, false)` never returns a private record, the result
is ordered pinned-first then `created_at` descending (ties in an order the
SQL leaves open — the scan order in this model), and it holds at most N
records. -/
theorem list_order_bound (s : DBState) (limit : Nat) (includePrivate : Bool) :
    (includePrivate = false →
      ∀ it ∈ listItems s limit includePrivate, it.isPrivate = false) ∧
    List.Sorted listLe (listItems s limit includePrivate) ∧
    (listItems s limit includePrivate).length ≤ limit := by
  refine ⟨?_, ?_, ?_⟩
  · intro hip it hit
    rw [hip] at hit
    simp only [listItems, Bool.false_eq_true, if_false] at hit
    have h1 : it ∈ sortForList (s.items.filter (fun j => !j.isPrivate)) :=
      List.take_subset _ _ hit
    have h2 : it ∈ s.items.filter (fun j => !j.isPrivate) :=
      (List.perm_insertionSort listLe _).mem_iff.mp h1
    have h3 := List.of_mem_filter h2
    simpa using h3
  · exact List.Pairwise.sublist (List.take_sublist _ _)
      (List.sorted_insertionSort listLe _)
  · simp [listItems, List.length_take]

/-- Witness for C3 (amended): the non-private record of a mixed store is in
`list(10, false)` and the theorem certifies it is not private. -/
theorem list_order_bound_witness :
    (mkText 1 1 "pub" false false).isPrivate = false :=
  (list_order_bound
      { items := [mkText 1 1 "pub" false false, mkText 2 2 "sec" false true],
        seq := 2, fs := [] } 10 false).1 rfl
    (mkText 1 1 "pub" false false) (by decide)

/-- A non-private record followed by a newer private record. -/
def latestState : DBState :=
  { items := [mkText 1 1 "A" false false, mkText 2 2 "B" false true],
    seq := 2, fs := [] }

/-- Counterexample to C2 as stated: after inserting non-private A then
private B, `getLatestItem` returns the private B while `list(1, false)`
returns A — `latest()` neither excludes private records nor equals
`list(1, false)[0]`. -/
theorem latest_counterexample :
    (getLatestItem latestState).map (fun it => (it.id, it.isPrivate)) =
      some (2, true) ∧
    (listItems latestState 1 false).map (fun it => it.id) = [1] := by
  constructor <;> decide

/-- `orderedInsert` under `createdLe` commutes with any map that preserves
`created_at`. -/
theorem orderedInsert_map_createdAt (f : Item → Item)
    (hf : ∀ x, (f x).createdAt = x.createdAt) (a : Item) :
    ∀ l : List Item,
      (l.map f).orderedInsert createdLe (f a) = (l.orderedInsert createdLe a).map f
  | [] => rfl
  | b :: t => by
    simp only [List.map_cons, List.orderedInsert]
    by_cases hab : createdLe a b
    · rw [if_pos (show createdLe (f a) (f b) by unfold createdLe at *; rw [hf, hf]; exact hab),
        if_pos hab]
      simp
    · rw [if_neg (show ¬createdLe (f a) (f b) by unfold createdLe at *; rw [hf, hf]; exact hab),
        if_neg hab]
      simp only [List.map_cons, orderedInsert_map_createdAt f hf a t]

/-- `insertionSort` under `createdLe` commutes with any map that preserves
`created_at`. -/
theorem insertionSort_map_createdAt (f : Item → Item)
    (hf : ∀ x, (f x).createdAt = x.createdAt) :
    ∀ l : List Item,
      (l.map f).insertionSort createdLe = (l.insertionSort createdLe).map f
  | [] => rfl
  | a :: t => by
    simp only [List.map_cons, List.insertionSort]
    rw [insertionSort_map_createdAt f hf t]
    exact orderedInsert_map_createdAt f hf a (t.insertionSort createdLe)

/-- C2 (amended): `getLatestItem` returns the most recently created record
among all records — private records are not excluded and pin status plays no
role — and pinning or unpinning any record never changes which record (by id)
it returns.  It can therefore differ from `list(1, false)[0]`, which is
private-filtered and pinned-first. -/
theorem latest_amended (s : DBState) :
    (s.items ≠ [] → ∃ l, getLatestItem s = some l ∧ l ∈ s.items ∧
      ∀ x ∈ s.items, x.createdAt ≤ l.createdAt) ∧
    (∀ id pinned,
      (getLatestItem (pinItem s id pinned).1).map (fun it => it.id) =
        (getLatestItem s).map (fun it => it.id)) := by
  constructor
  · intro hne
    have hperm := List.perm_insertionSort createdLe s.items
    have hsorted := List.sorted_insertionSort createdLe s.items
    cases hS : s.items.insertionSort createdLe with
    | nil =>
      exact absurd (List.Perm.eq_nil (hS ▸ hperm).symm) hne
    | cons l t =>
      refine ⟨l, ?_, ?_, ?_⟩
      · show (sortByCreated s.items).head? = some l
        unfold sortByCreated
        rw [hS]
        rfl
      · exact hperm.mem_iff.mp (hS ▸ List.mem_cons_self l t)
      · intro x hx
        have hx2 : x ∈ l :: t := hS ▸ hperm.mem_iff.mpr hx
        rcases List.mem_cons.mp hx2 with hxl | hxt
        · exact hxl ▸ Nat.le_refl _
        · have := List.rel_of_sorted_cons (hS ▸ hsorted) x hxt
          exact this
  · intro id pinned
    unfold getLatestItem sortByCreated
    have hitems : (pinItem s id pinned).1.items =
        s.items.map (fun it => if it.id = id then { it with isPinned := pinned } else it) :=
      rfl
    have hf : ∀ x : Item,
        ((fun it => if it.id = id then { it with isPinned := pinned } else it) x).createdAt =
          x.createdAt := by
      intro x
      by_cases hx : x.id = id <;> simp [hx]
    rw [hitems, insertionSort_map_createdAt _ hf, List.head?_map]
    cases hh : (s.items.insertionSort createdLe).head? with
    | none => rfl
    | some l =>
      show some ((fun it => if it.id = id then
          ({ it with isPinned := pinned } : Item) else it) l).id = some l.id
      by_cases hl : l.id = id <;> simp [hl]

/-- Witness for C2 (amended) at the two-record store: the returned record is
the newest one. -/
theorem latest_amended_witness :
    ∃ l, getLatestItem latestState = some l ∧ l ∈ latestState.items ∧
      ∀ x ∈ latestState.items, x.createdAt ≤ l.createdAt :=
  (latest_amended latestState).1 (by decide)

/-- `unlinkIfExists` never creates a file. -/
theorem unlinkIfExists_not_mem {unlinkOk : String → Bool} {fs : List String}
    {p q : String} (h : q ∉ fs) : q ∉ unlinkIfExists unlinkOk fs p := by
  unfold unlinkIfExists
  by_cases hmem : p ∈ fs
  · rw [if_pos hmem]
    by_cases hok : unlinkOk p = true
    · rw [if_pos hok]
      intro hc
      exact h (List.mem_of_mem_filter hc)
    · rw [if_neg hok]
      exact h
  · rw [if_neg hmem]
    exact h

/-- A successful `unlinkSync` removes its path. -/
theorem unlinkIfExists_self {unlinkOk : String → Bool} {fs : List String}
    {p : String} (hok : unlinkOk p = true) : p ∉ unlinkIfExists unlinkOk fs p := by
  unfold unlinkIfExists
  by_cases hmem : p ∈ fs
  · rw [if_pos hmem, if_pos hok]
    intro hc
    have := List.of_mem_filter hc
    simp at this
  · rw [if_neg hmem]
    exact hmem

/-- The cleanup loop of `clearItems` never creates a file. -/
theorem unlinkCacheFiles_not_mem {unlinkOk : String → Bool} {q : String} :
    ∀ (sel : List Item) (fs : List String), q ∉ fs →
      q ∉ unlinkCacheFiles unlinkOk fs sel
  | [], _, h => h
  | a :: t, fs, h => by
    show q ∉ unlinkCacheFiles unlinkOk
      (match a.cachedFilePath with
        | some p => unlinkIfExists unlinkOk fs p
        | none => fs) t
    apply unlinkCacheFiles_not_mem t
    cases a.cachedFilePath with
    | none => exact h
    | some p => exact unlinkIfExists_not_mem h

/-- The cleanup loop of `clearItems` removes the cache file of every selected
record whose unlink succeeds. -/
theorem unlinkCacheFiles_removes {unlinkOk : String → Bool} {it : Item}
    {p : String} (hp : it.cachedFilePath = some p) (hok : unlinkOk p = true) :
    ∀ (sel : List Item) (fs : List String), it ∈ sel →
      p ∉ unlinkCacheFiles unlinkOk fs sel
  | [], _, hmem => absurd hmem (List.not_mem_nil it)
  | a :: t, fs, hmem => by
    show p ∉ unlinkCacheFiles unlinkOk
      (match a.cachedFilePath with
        | some q => unlinkIfExists unlinkOk fs q
        | none => fs) t
    rcases List.mem_cons.mp hmem with heq | htl
    · subst heq
      rw [hp]
      exact unlinkCacheFiles_not_mem t _ (unlinkIfExists_self hok)
    · exact unlinkCacheFiles_removes hp hok t _ htl

/-- C5 (amended): `clear(false)` deletes exactly the non-pinned records,
keeps every pinned record retrievable by `get`, leaves the id sequence
untouched, and returns the count deleted; `clear(true)` deletes every record,
removes the cache file of every deleted file-backed record whose unlink
succeeds (failures are swallowed), returns the count deleted, and resets the
id sequence — so that the next insert receives id 1 — provided at least one
record was deleted (an already-empty store keeps its previous sequence). -/
theorem clear_semantics (s : DBState) (unlinkOk : String → Bool) :
    (clearItems s unlinkOk false).1.items = s.items.filter (fun it => it.isPinned) ∧
    (clearItems s unlinkOk false).1.seq = s.seq ∧
    (clearItems s unlinkOk false).2 = (s.items.filter (fun it => !it.isPinned)).length ∧
    ((s.items.map (fun it => it.id)).Nodup →
      ∀ it ∈ s.items, it.isPinned = true →
        getItem (clearItems s unlinkOk false).1 it.id = some it) ∧
    (clearItems s unlinkOk true).1.items = [] ∧
    (∀ id, getItem (clearItems s unlinkOk true).1 id = none) ∧
    (clearItems s unlinkOk true).2 = s.items.length ∧
    (s.items ≠ [] → (clearItems s unlinkOk true).1.seq = 0 ∧
      nextId (clearItems s unlinkOk true).1 = 1) ∧
    (∀ it ∈ s.items, ∀ p, it.cachedFilePath = some p → unlinkOk p = true →
      p ∉ (clearItems s unlinkOk true).1.fs) := by
  refine ⟨rfl, rfl, rfl, ?_, rfl, fun id => rfl, rfl, ?_, ?_⟩
  · intro hn it hmem hpin
    show (s.items.filter (fun it => it.isPinned)).find? (fun j => j.id = it.id) = some it
    apply find_id_of_nodup
    · exact List.Nodup.sublist
        (List.Sublist.map (fun it => it.id) (List.filter_sublist s.items)) hn
    · exact List.mem_filter.mpr ⟨hmem, by simp [hpin]⟩
  · intro hne
    have hseq : (clearItems s unlinkOk true).1.seq = 0 := by
      show (if true && decide (0 < s.items.length) then 0 else s.seq) = 0
      rw [if_pos]
      simp [List.length_pos]
      exact hne
    refine ⟨hseq, ?_⟩
    show max (clearItems s unlinkOk true).1.seq (maxIdOf (clearItems s unlinkOk true).1.items) + 1 = 1
    rw [hseq]
    rfl
  · intro it hmem p hp hok
    exact unlinkCacheFiles_removes hp hok s.items s.fs hmem

/-- A store whose records were all deleted while the id sequence stands at 2
(reachable by two inserts followed by `clear(false)`). -/
def drainedState : DBState := { items := [], seq := 2, fs := [] }

/-- Counterexample to C5 as stated: `clear(true)` on an empty store with a
non-zero id sequence does not reset the sequence — the next insert receives
id 3, not 1. -/
theorem clear_reset_counterexample :
    (clearItems drainedState okAll true).1.seq = 2 ∧
    ((addTextItem (clearItems drainedState okAll true).1 okAll 9 "x" "text" false).2).map
      (fun it => it.id) = some 3 ∧ (3 : Nat) ≠ 1 := by
  refine ⟨by decide, by decide, by decide⟩

/-- Two non-pinned records and one pinned record. -/
def clearState : DBState :=
  { items := [mkText 1 1 "a" false false, mkText 2 2 "b" false false,
      mkText 3 3 "pin" true false], seq := 3, fs := [] }

/-- Witness for C5 (amended): `clear(false)` on `clearState` leaves the
pinned record retrievable, and `clear(true)` on it resets the sequence. -/
theorem clear_semantics_witness :
    getItem (clearItems clearState okAll false).1 (mkText 3 3 "pin" true false).id =
      some (mkText 3 3 "pin" true false) ∧
    (clearItems clearState okAll true).1.seq = 0 := by
  constructor
  · exact (clear_semantics clearState okAll).2.2.2.1 (by decide)
      (mkText 3 3 "pin" true false) (by decide) (by decide)
  · exact ((clear_semantics clearState okAll).2.2.2.2.2.2.2.1 (by decide)).1

/-- Counterexample to C6 as stated: with the process working directory at the
filesystem root, `validatePath("../../../etc/passwd")` succeeds —
`path.resolve` erases the traversal before the suspicious-pattern check runs,
and the resolved `/etc/passwd` passes the allowed-roots check because it
extends the root `"/"`.  A successful validation then lets the caller proceed
to the filesystem. -/
theorem traversal_counterexample :
    validateFilePath "/home/user" "/" "../../../etc/passwd" =
      Except.ok "/etc/passwd" := by rfl

/-- C6 (amended): for the input `../../../etc/passwd`, `validateFilePath`
fails — with the access-denied error — exactly in those environments where
the resolved absolute path escapes both allowed roots, i.e. whenever neither
the normalized home directory nor the normalized working directory is a
string prefix of the resolution of `cwd ++ "/../../../etc/passwd"`.  The
traversal pattern itself is erased by normalization, so the rejection comes
from the allowed-roots check, and `validateFilePath` performs string
computation only. -/
theorem traversal_amended (home cwd : String)
    (h1 : strStartsWith (normalizeAbs (cwd ++ "/" ++ "../../../etc/passwd"))
        (normalizeAbs home) = false)
    (h2 : strStartsWith (normalizeAbs (cwd ++ "/" ++ "../../../etc/passwd"))
        (normalizeAbs cwd) = false) :
    validateFilePath home cwd "../../../etc/passwd" =
      Except.error "Access denied: file path is outside allowed directories" := by
  show cond
      (!(strStartsWith (normalizeAbs (cwd ++ "/" ++ "../../../etc/passwd")) (normalizeAbs home) ||
         strStartsWith (normalizeAbs (cwd ++ "/" ++ "../../../etc/passwd")) (normalizeAbs cwd)))
      (Except.error "Access denied: file path is outside allowed directories")
      (cond (hasParentTraversal (normalizeAbs (cwd ++ "/" ++ "../../../etc/passwd")) ||
             endsWithDotDot (normalizeAbs (cwd ++ "/" ++ "../../../etc/passwd")))
        (Except.error "Invalid file path: contains suspicious patterns")
        (Except.ok (normalizeAbs (cwd ++ "/" ++ "../../../etc/passwd")))) =
    Except.error "Access denied: file path is outside allowed directories"
  rw [h1, h2]
  rfl

/-- Witness for C6 (amended): in the ordinary environment (home and cwd both
`/home/user`), the traversal input is rejected. -/
theorem traversal_amended_witness :
    validateFilePath "/home/user" "/home/user" "../../../etc/passwd" =
      Except.error "Access denied: file path is outside allowed directories" :=
  traversal_amended "/home/user" "/home/user" (by decide) (by decide)

/-- What `maintainItemLimit` keeps, on a table with unique ids: every pinned
row, and exactly the first `MAX_ITEMS` rows of the stable
`created_at`-descending ordering of the non-pinned rows; each selected excess
row is gone from `getItem`. -/
theorem maintain_characterization (s : DBState) (unlinkOk : String → Bool)
    (hn : (s.items.map (fun it => it.id)).Nodup) :
    (∀ it, it ∈ (maintainItemLimit s unlinkOk).items ↔
      (it ∈ s.items ∧ (it.isPinned = true ∨
        it ∈ (sortByCreated (nonPinned s.items)).take MAX_ITEMS))) ∧
    (∀ it ∈ excessItems s.items, getItem (maintainItemLimit s unlinkOk) it.id = none) := by
  have hitems : (maintainItemLimit s unlinkOk).items =
      s.items.filter (fun j =>
        !decide (j.id ∈ (excessItems s.items).map (fun e => e.id))) :=
    deleteMany_items s unlinkOk _
  have hperm : (sortByCreated (nonPinned s.items)).Perm (nonPinned s.items) :=
    List.perm_insertionSort createdLe _
  have hnodup : s.items.Nodup := List.Nodup.of_map _ hn
  have hexcess_sub : ∀ e ∈ excessItems s.items, e ∈ s.items ∧ e.isPinned = false := by
    intro e he
    have h1 : e ∈ sortByCreated (nonPinned s.items) := List.drop_subset _ _ he
    have h2 : e ∈ nonPinned s.items := hperm.mem_iff.mp h1
    exact ⟨List.mem_of_mem_filter h2, by simpa using List.of_mem_filter h2⟩
  constructor
  · intro it
    rw [hitems, List.mem_filter]
    constructor
    · rintro ⟨hmem, hpred⟩
      refine ⟨hmem, ?_⟩
      have hnotin : it.id ∉ (excessItems s.items).map (fun e => e.id) := by
        simpa using hpred
      by_cases hp : it.isPinned = true
      · exact Or.inl hp
      · right
        have hnp : it ∈ nonPinned s.items :=
          List.mem_filter.mpr ⟨hmem, by simp [hp]⟩
        have hsort : it ∈ sortByCreated (nonPinned s.items) := hperm.mem_iff.mpr hnp
        rw [← List.take_append_drop MAX_ITEMS (sortByCreated (nonPinned s.items))] at hsort
        rcases List.mem_append.mp hsort with htake | hdrop
        · exact htake
        · exact absurd (List.mem_map_of_mem (fun e => e.id) hdrop) hnotin
    · rintro ⟨hmem, hcase⟩
      refine ⟨hmem, ?_⟩
      have hgoal : it.id ∉ (excessItems s.items).map (fun e => e.id) := by
        intro hid
        obtain ⟨e, he, heid⟩ := List.mem_map.mp hid
        have hes := hexcess_sub e he
        have heq : e = it := List.inj_on_of_nodup_map hn hes.1 hmem heid
        rcases hcase with hp | htake
        · rw [heq] at hes
          rw [hes.2] at hp
          cases hp
        · have hdrop : it ∈ excessItems s.items := heq ▸ he
          have hsnd : (sortByCreated (nonPinned s.items)).Nodup :=
            hperm.nodup_iff.mpr
              (List.Nodup.sublist (List.filter_sublist _) hnodup)
          have hc1 : 0 < ((sortByCreated (nonPinned s.items)).take MAX_ITEMS).count it :=
            List.count_pos_iff.mpr htake
          have hc2 : 0 < ((sortByCreated (nonPinned s.items)).drop MAX_ITEMS).count it :=
            List.count_pos_iff.mpr hdrop
          have hc : (sortByCreated (nonPinned s.items)).count it ≤ 1 :=
            List.nodup_iff_count_le_one.mp hsnd it
          rw [← List.take_append_drop MAX_ITEMS (sortByCreated (nonPinned s.items)),
            List.count_append] at hc
          omega
      simpa using hgoal
  · intro e he
    show ((maintainItemLimit s unlinkOk).items).find? (fun j => j.id = e.id) = none
    rw [hitems]
    apply List.find?_eq_none.mpr
    intro j hj
    have hpred : j.id ∉ (excessItems s.items).map (fun x => x.id) := by
      simpa using List.of_mem_filter hj
    intro hje
    have hje2 : j.id = e.id := by simpa using hje
    exact hpred (hje2 ▸ List.mem_map_of_mem (fun x => x.id) he)

/-- Appending a fresh row (id `nextId`) preserves id uniqueness. -/
theorem insert_nodup (s : DBState) (x : Item) (hx : x.id = nextId s)
    (hn : (s.items.map (fun it => it.id)).Nodup) :
    ((s.items ++ [x]).map (fun it => it.id)).Nodup := by
  rw [List.map_append]
  refine List.Nodup.append hn (by simp) ?_
  intro a ha hb
  simp only [List.map_cons, List.map_nil, List.mem_singleton] at hb
  obtain ⟨it2, hmem, heq⟩ := List.mem_map.mp ha
  have hlt := id_lt_nextId hmem
  rw [hx] at hb
  omega

/-- C1 (amended): after every insert — text or file — the surviving
non-pinned records are exactly the first `MAX_ITEMS` (50) records of the
stable `created_at`-descending ordering of the non-pinned records present
right after the row insert (ties keep the table scan order: the SQL has no id
tie-break); every other non-pinned record is deleted, and a subsequent `get`
of any selected excess id returns absent; no pinned record is ever deleted by
this maintenance. -/
theorem eviction_amended (s : DBState) (unlinkOk : String → Bool) (now : Nat)
    (content contentType : String) (isPrivate : Bool)
    (validatedPath cachedPath preview fileType fileMime : String) (fileSize : Nat)
    (hn : (s.items.map (fun it => it.id)).Nodup) :
    (∀ it, it ∈ (addTextItem s unlinkOk now content contentType isPrivate).1.items ↔
      (it ∈ (insertTextRow s now content contentType isPrivate).1.items ∧
        (it.isPinned = true ∨
          it ∈ (sortByCreated (nonPinned
            (insertTextRow s now content contentType isPrivate).1.items)).take MAX_ITEMS))) ∧
    (∀ it ∈ excessItems (insertTextRow s now content contentType isPrivate).1.items,
      getItem (addTextItem s unlinkOk now content contentType isPrivate).1 it.id = none) ∧
    (∀ it, it ∈ (addFileItem s unlinkOk now validatedPath cachedPath preview
        fileType fileMime fileSize isPrivate).1.items ↔
      (it ∈ (insertFileRow s now validatedPath cachedPath preview
          fileType fileMime fileSize isPrivate).1.items ∧
        (it.isPinned = true ∨
          it ∈ (sortByCreated (nonPinned
            (insertFileRow s now validatedPath cachedPath preview
              fileType fileMime fileSize isPrivate).1.items)).take MAX_ITEMS))) ∧
    (∀ it ∈ excessItems (insertFileRow s now validatedPath cachedPath preview
        fileType fileMime fileSize isPrivate).1.items,
      getItem (addFileItem s unlinkOk now validatedPath cachedPath preview
        fileType fileMime fileSize isPrivate).1 it.id = none) := by
  have hn1 : ((insertTextRow s now content contentType isPrivate).1.items.map
      (fun it => it.id)).Nodup :=
    insert_nodup s _ rfl hn
  have hn2 : ((insertFileRow s now validatedPath cachedPath preview
      fileType fileMime fileSize isPrivate).1.items.map (fun it => it.id)).Nodup :=
    insert_nodup s _ rfl hn
  have h1 := maintain_characterization
    (insertTextRow s now content contentType isPrivate).1 unlinkOk hn1
  have h2 := maintain_characterization
    (insertFileRow s now validatedPath cachedPath preview
      fileType fileMime fileSize isPrivate).1 unlinkOk hn2
  exact ⟨h1.1, h1.2, h2.1, h2.2⟩

/-- Witness for C1 (amended): inserting into an empty store keeps the new
record — it is non-pinned and within the first 50 of the ordering. -/
theorem eviction_amended_witness :
    mkText 1 7 "a" false false ∈
      (addTextItem { items := [], seq := 0, fs := [] } okAll 7 "a" "text" false).1.items :=
  ((eviction_amended { items := [], seq := 0, fs := [] } okAll 7 "a" "text" false
      "" "" "" "" "" 0 (by decide)).1 (mkText 1 7 "a" false false)).mpr
    ⟨by decide, Or.inr (by decide)⟩

/-- Fifty non-pinned records all created within one `created_at` second. -/
def fullSecondState : DBState :=
  { items := (List.range 50).map (fun i => mkText (i + 1) 10 "x" false false),
    seq := 50, fs := [] }

set_option maxRecDepth 8000 in
/-- Counterexample to C1 as stated: inserting a 51st record in the same
second deletes the record just inserted (id 51, tied on `created_at` with the
other fifty) and keeps ids 1..50 — not the 50 most recent by id — because the
eviction query orders by `created_at` alone and the scan order survives the
stable sort.  `addTextItem` then even returns null (`none`), since
`getItem(lastInsertRowid)` finds nothing. -/
theorem eviction_counterexample :
    (addTextItem fullSecondState okAll 10 "new" "text" false).2 = none ∧
    getItem (addTextItem fullSecondState okAll 10 "new" "text" false).1 51 = none ∧
    getItem (addTextItem fullSecondState okAll 10 "new" "text" false).1 1 =
      some (mkText 1 10 "x" false false) := by
  refine ⟨by decide, by decide, by decide⟩

/-- C8: `sanitizeFtsQuery` returns the empty string exactly when the cleaned
(special-character-escaped, whitespace-collapsed) query is shorter than 2
characters, and otherwise the cleaned query wrapped in double quotes; hence
`search("")` and `search("a")` return the empty sequence without error. -/
theorem sanitize_short_query_policy :
    (∀ q : String,
      ((trimCollapseWs (escapeFtsChars q)).length < 2 → sanitizeFtsQuery q = "") ∧
      (2 ≤ (trimCollapseWs (escapeFtsChars q)).length →
        sanitizeFtsQuery q = "\"" ++ trimCollapseWs (escapeFtsChars q) ++ "\"")) ∧
    (∀ (s : DBState) (m : String → String → String → Bool) (lim : Nat),
      searchItems s m "" lim = [] ∧ searchItems s m "a" lim = []) := by
  constructor
  · intro q
    by_cases hq : q = ""
    · subst hq
      refine ⟨fun _ => rfl, fun h => ?_⟩
      simp only [show trimCollapseWs (escapeFtsChars "") = "" from rfl] at h
      simp at h
    · unfold sanitizeFtsQuery
      rw [if_neg hq]
      constructor
      · intro h
        simp only [if_pos h]
      · intro h
        rw [if_neg (by omega)]
  · intro s m lim
    constructor
    · unfold searchItems
      rw [if_pos (by decide)]
    · unfold searchItems
      rw [if_pos (by decide)]

/-- Witness for C8 at the concrete queries of the claim. -/
theorem sanitize_short_query_policy_witness :
    sanitizeFtsQuery "a" = "" ∧ sanitizeFtsQuery "hello" = "\"hello\"" := by
  constructor
  · exact (sanitize_short_query_policy.1 "a").1 (by decide)
  · have h := (sanitize_short_query_policy.1 "hello").2 (by decide)
    rw [h]
    decide

/-- The verdict of `checkLimit` is a function of the window, the ceiling for
the requested kind, and that kind's timestamp map alone. -/
theorem checkLimit_fst (rl : RateLimiter) (now : Int) (identifier : String)
    (isFileOp : Bool) :
    (checkLimit rl now identifier isFileOp).1 =
      !decide ((cond isFileOp rl.maxFileOps rl.maxRequests) ≤
        ((mapGet (cond isFileOp rl.fileOps rl.requests) identifier).filter
          (fun ts => now - ts < rl.windowMs)).length) := by
  simp only [checkLimit]
  split
  next hcond => simp [hcond]
  next hcond => simp [hcond]

/-- C10: a rate-limited `checkLimit` call leaves the limiter state unchanged,
and the general and file-operation counters are independent: a call of one
kind never touches the other kind's map, and a call's verdict depends only on
its own kind's map and ceiling. -/
theorem rate_limiter_independence (rl : RateLimiter) (now : Int)
    (identifier : String) :
    (∀ isFileOp : Bool,
      (checkLimit rl now identifier isFileOp).1 = false →
      (checkLimit rl now identifier isFileOp).2 = rl) ∧
    (checkLimit rl now identifier false).2.fileOps = rl.fileOps ∧
    (checkLimit rl now identifier true).2.requests = rl.requests ∧
    (∀ rl2 : RateLimiter, rl2.fileOps = rl.fileOps →
      rl2.windowMs = rl.windowMs → rl2.maxFileOps = rl.maxFileOps →
      (checkLimit rl2 now identifier true).1 = (checkLimit rl now identifier true).1) ∧
    (∀ rl2 : RateLimiter, rl2.requests = rl.requests →
      rl2.windowMs = rl.windowMs → rl2.maxRequests = rl.maxRequests →
      (checkLimit rl2 now identifier false).1 = (checkLimit rl now identifier false).1) := by
  refine ⟨?_, ?_, ?_, ?_, ?_⟩
  · intro isFileOp h
    simp only [checkLimit] at h ⊢
    split at h
    next hcond =>
      rw [if_pos hcond]
    next hcond =>
      simp at h
  · simp only [checkLimit]
    split <;> rfl
  · simp only [checkLimit]
    split <;> rfl
  · intro rl2 h1 h2 h3
    rw [checkLimit_fst, checkLimit_fst, h1, h2, h3]
    rfl
  · intro rl2 h1 h2 h3
    rw [checkLimit_fst, checkLimit_fst, h1, h2, h3]
    rfl

/-- Witness for C10: a limiter with an exhausted general window rejects the
call and is returned unchanged. -/
theorem rate_limiter_independence_witness :
    (checkLimit
        { windowMs := 60000, maxRequests := 1, maxFileOps := 1,
          requests := [("default", [5])], fileOps := [] }
        10 "default" false).1 = false ∧
    (checkLimit
        { windowMs := 60000, maxRequests := 1, maxFileOps := 1,
          requests := [("default", [5])], fileOps := [] }
        10 "default" false).2 =
      { windowMs := 60000, maxRequests := 1, maxFileOps := 1,
        requests := [("default", [5])], fileOps := [] } := by
  constructor
  · decide
  · exact (rate_limiter_independence
      { windowMs := 60000, maxRequests := 1, maxFileOps := 1,
        requests := [("default", [5])], fileOps := [] }
      10 "default").1 false (by decide)

end Clipboard
